import Mathlib

/-!
Shallow embedding of `src/tools/scrape/vimorg.py` (a vim.org scraper).

The program has three parts:
  * `_clean_text_node` (lines 69-114): in-place cleaning of a description
    fragment, removing `<br>` elements and replacing recognized `<a>`
    elements by their text;
  * `get_plugin_list` (lines 22-66): walks the rows of the listing table
    (dropping the first two rows and the last one), extracts summary
    fields from each row, calls `get_plugin_info` per row inside a bare
    `try/except`, and yields merged records;
  * `get_plugin_info` (lines 117-166): extracts detail fields; its date
    section (lines 146-156) is embedded here as `get_plugin_info_dates`.

HTTP fetching and HTML parsing are external capabilities: the embedding
takes the already-parsed query results (table rows, fragment children) as
input.  Python exceptions are modelled by `Except PyErr`.

Modelling notes on lxml semantics used by the source:
  * `bool(element)` is `len(element) > 0` (number of child elements), so
    `if elem.getprevious():` on lines 89 and 100 is a truthiness test on
    the preceding sibling's child count, not a `None` test;
  * iterating an element's children prefetches the next sibling before
    yielding the current one, so `remove()` of the current element does
    not skip the following sibling: every original child is visited once;
  * `remove()` drops the removed element's tail text from the tree, which
    is why the source concatenates tails by hand before removing.
-/

/-- Python exceptions raised by the scraper.  `weirdLink` is the
`Exception("Weird link to %s with text %s" ...)` of line 112 (the
spec's UnrecognizedLinkError); `valueError` covers both `int()` failures
and `strptime` failures (the spec's DateFormatError). -/
inductive PyErr where
  | indexError
  | keyError
  | typeError
  | valueError
  | attributeError
  | assertionError
  | weirdLink (href : String) (text : Option String)
deriving DecidableEq

/-- Decides whether `pat` is a prefix of `l` (character lists). -/
def listPre : List Char → List Char → Bool
  | [], _ => true
  | _ :: _, [] => false
  | a :: as, b :: bs => a == b && listPre as bs

/-- Helper for `hasSub`: does `pat` occur in the list at any position. -/
def hasSubAux (pat : List Char) : List Char → Bool
  | [] => pat.isEmpty
  | c :: cs => listPre pat (c :: cs) || hasSubAux pat cs

/-- Python `pat in s` substring containment on strings. -/
def hasSub (pat s : String) : Bool :=
  hasSubAux pat.data s.data

/-- Python truthiness of an optional string: `None` and `""` are falsy. -/
def truthy : Option String → Bool
  | none => false
  | some s => !(s == "")

/-- Python `x += y` where `x` is an optional string slot: `None += y`
raises TypeError, otherwise concatenates. -/
def pyAppend : Option String → String → Except PyErr (Option String)
  | none, _ => .error .typeError
  | some s, t => .ok (some (s ++ t))

/-- Child element of a text-description fragment, as the cleaner accesses
it: tag name, `attrib["href"]` (when present), leading text, tail text,
and the number of its own child elements (`len(elem)`, which is what lxml
element truthiness tests; grandchildren are otherwise never accessed by
the cleaner, so only their count is modelled). -/
structure Elem where
  tag : String
  href : Option String
  text : Option String
  tail : Option String
  nchildren : Nat
deriving DecidableEq

/-- A fragment node: its leading text and its list of child elements. -/
structure Frag where
  text : Option String
  children : List Elem
deriving DecidableEq

/-- Truthiness of `elem.getprevious()` inside the cleaner's loop: `kept`
holds the current (not removed) preceding siblings in order, so the
preceding sibling is its last element; an existing element is truthy iff
it has at least one child element. -/
def prevTruthy (kept : List Elem) : Bool :=
  match kept.getLast? with
  | none => false
  | some p => decide (0 < p.nchildren)

/-- Applies `elem.getprevious().tail += t`: appends to the tail of the
last kept sibling, raising TypeError when that tail is `None`. -/
def appendPrevTail (kept : List Elem) (t : String) : Except PyErr (List Elem) :=
  match kept.getLast? with
  | none => .error .typeError
  | some p =>
    match pyAppend p.tail t with
    | .error e => .error e
    | .ok tl => .ok (kept.dropLast ++ [{ p with tail := tl }])

/-- Lines 99-107 of the source, shared by both citation-style `<a>`
branches: append `txt` (the link's text) and then, when truthy, the tail,
onto the preceding sibling's tail if `getprevious()` is truthy, otherwise
onto the parent's leading text. -/
def cleanCitation (text : Option String) (kept : List Elem) (txt : String)
    (tail : Option String) : Except PyErr (Option String × List Elem) :=
  if prevTruthy kept then
    match appendPrevTail kept txt with
    | .error e => .error e
    | .ok k =>
      if truthy tail then
        match appendPrevTail k (tail.getD "") with
        | .error e => .error e
        | .ok k2 => .ok (text, k2)
      else .ok (text, k)
  else
    match pyAppend text txt with
    | .error e => .error e
    | .ok t =>
      if truthy tail then
        match pyAppend t (tail.getD "") with
        | .error e => .error e
        | .ok t2 => .ok (t2, kept)
      else .ok (t, kept)

/-- Body of the cleaner's loop (lines 84-114) for one child element.
State is the parent's leading text plus the kept (not removed) preceding
siblings.  `<br>`: preserve a truthy tail onto the preceding sibling's
tail or the parent's text, then remove.  `<a>`: citation-style links
(text equal to href, or containing "vimscript") keep their text the same
way; links whose text contains "vimtip" are dropped silently; any other
link raises the weird-link exception.  Other tags are left in place. -/
def cleanStep (st : Option String × List Elem) (elem : Elem) :
    Except PyErr (Option String × List Elem) :=
  let (text, kept) := st
  if elem.tag = "br" then
    if truthy elem.tail then
      if prevTruthy kept then
        match appendPrevTail kept (elem.tail.getD "") with
        | .error e => .error e
        | .ok k => .ok (text, k)
      else
        match pyAppend text (elem.tail.getD "") with
        | .error e => .error e
        | .ok t => .ok (t, kept)
    else .ok (text, kept)
  else if elem.tag = "a" then
    match elem.href with
    | none => .error .keyError
    | some href =>
      if elem.text = some href then
        cleanCitation text kept href elem.tail
      else
        match elem.text with
        | none => .error .typeError
        | some t =>
          if hasSub "vimscript" t then cleanCitation text kept t elem.tail
          else if hasSub "vimtip" t then .ok (text, kept)
          else .error (.weirdLink href (some t))
  else .ok (text, kept ++ [elem])

/-- Runs the cleaner's loop over the (original) children in order. -/
def cleanList (text : Option String) (kept : List Elem) :
    List Elem → Except PyErr (Option String × List Elem)
  | [] => .ok (text, kept)
  | e :: rest =>
    match cleanStep (text, kept) e with
    | .error err => .error err
    | .ok (t, k) => cleanList t k rest

/-- Embedding of `_clean_text_node` (lines 69-114).  Lines 80-81 first
initialize the parent's leading text to `""` when the node has children
and its text is falsy; the loop then processes every original child. -/
def _clean_text_node (node : Frag) : Except PyErr Frag :=
  let t0 :=
    if node.children.isEmpty then node.text
    else if truthy node.text then node.text
    else some ""
  match cleanList t0 [] node.children with
  | .error e => .error e
  | .ok (t, k) => .ok ⟨t, k⟩

/-- An anchor element inside a table cell, as the listing and detail code
access it: `attrib["href"]` (when present) and its text. -/
structure Anchor where
  href : Option String
  text : Option String
deriving DecidableEq

/-- A table cell: its text and its child elements (the source only ever
reads `cell.text` or indexes `cell[0]` and reads href/text of that). -/
structure Cell where
  text : Option String
  children : List Anchor
deriving DecidableEq

/-- A table row (`tr`) is its list of cells. -/
abbrev Row := List Cell

/-- Value of a decimal digit character. -/
def digitVal (c : Char) : Nat := c.toNat - 48

/-- Numeric value of a list of decimal digit characters. -/
def natOfDigits (l : List Char) : Nat :=
  l.foldl (fun n c => 10 * n + digitVal c) 0

/-- Decides `lo ≤ c ≤ hi` on characters. -/
def charBetween (lo hi c : Char) : Bool :=
  decide (lo ≤ c) && decide (c ≤ hi)

/-- Python whitespace as stripped by `int()` / `str.strip()`. -/
def isPyWs (c : Char) : Bool :=
  c == ' ' || c == '\t' || c == '\n' || c == '\r' || c == '\x0b' || c == '\x0c'

/-- Strips leading and trailing Python whitespace from a character list. -/
def stripPyWs (l : List Char) : List Char :=
  ((l.dropWhile isPyWs).reverse.dropWhile isPyWs).reverse

/-- After an initial digit, `int()` accepts further digits with single
underscores allowed between digits. -/
def pyDigitsRest : List Char → Bool
  | [] => true
  | '_' :: c :: rest => c.isDigit && pyDigitsRest rest
  | ['_'] => false
  | c :: rest => c.isDigit && pyDigitsRest rest

/-- Digit sequence accepted by `int()` (nonempty, single underscores
allowed between digits). -/
def pyIntDigits : List Char → Bool
  | [] => false
  | c :: rest => c.isDigit && pyDigitsRest rest

/-- Python `int(s)` on the characters of `s`: strip whitespace, optional
sign, then digits (value ignores grouping underscores); anything else
raises ValueError. -/
def pyIntCore (l : List Char) : Option Int :=
  match stripPyWs l with
  | [] => none
  | c :: rest =>
    if c == '-' then
      if pyIntDigits rest then
        some (-(natOfDigits (rest.filter (fun x => x != '_')) : Int))
      else none
    else if c == '+' then
      if pyIntDigits rest then
        some ((natOfDigits (rest.filter (fun x => x != '_')) : Int))
      else none
    else if pyIntDigits (c :: rest) then
      some ((natOfDigits ((c :: rest).filter (fun x => x != '_')) : Int))
    else none

/-- Python `int(x)` where `x` is an optional string: TypeError on `None`,
ValueError on a malformed string. -/
def pyInt : Option String → Except PyErr Int
  | none => .error .typeError
  | some s =>
    match pyIntCore s.data with
    | none => .error .valueError
    | some n => .ok n

/-- Pattern `"script_id="` of the regex on line 42. -/
def scriptIdPat : List Char := "script_id=".data

/-- Models `re.search("script_id=(\\d+)", link)`: the first position where
the literal pattern is followed by at least one digit; group 1 is the
maximal digit run there.  `None` when the pattern never matches (then
`.group(1)` on line 42 raises AttributeError). -/
def searchScriptId : List Char → Option Nat
  | [] => none
  | c :: t =>
    if listPre scriptIdPat (c :: t) then
      let ds := ((c :: t).drop scriptIdPat.length).takeWhile Char.isDigit
      if ds.isEmpty then searchScriptId t else some (natOfDigits ds)
    else searchScriptId t

/-- Lines 40-43 of `get_plugin_list`, run before the `try`: the link
href (`tr[0][0].attrib['href']`, IndexError / KeyError when absent), the
script id from the regex (AttributeError when the regex finds nothing),
and the name (`tr[0][0].text`). -/
def rowPre (r : Row) : Except PyErr (String × Option String × Nat) :=
  match r.get? 0 with
  | none => .error .indexError
  | some c0 =>
    match c0.children.get? 0 with
    | none => .error .indexError
    | some a0 =>
      match a0.href with
      | none => .error .keyError
      | some link =>
        match searchScriptId link.data with
        | none => .error .attributeError
        | some sid => .ok (link, a0.text, sid)

/-- Lines 62-65 of `get_plugin_list`, run after the `try` while building
the yielded dict, in source evaluation order: `tr[1].text`,
`int(tr[2].text)`, `int(tr[3].text)`, `tr[4][0].text`. -/
def rowPost (r : Row) : Except PyErr (Option String × Int × Int × Option String) :=
  match r.get? 1 with
  | none => .error .indexError
  | some c1 =>
    match r.get? 2 with
    | none => .error .indexError
    | some c2 =>
      match pyInt c2.text with
      | .error e => .error e
      | .ok rating =>
        match r.get? 3 with
        | none => .error .indexError
        | some c3 =>
          match pyInt c3.text with
          | .error e => .error e
          | .ok downloads =>
            match r.get? 4 with
            | none => .error .indexError
            | some c4 =>
              match c4.children.get? 0 with
              | none => .error .indexError
              | some d => .ok (c1.text, rating, downloads, d.text)

/-- One merged record yielded by `get_plugin_list` (lines 57-66), with
the extra data returned by `get_plugin_info` kept abstract as `info`
(its keys are disjoint from the listing keys, so the `dict(..., **info)`
merge keeps all listing fields). -/
structure Merged (α : Type) where
  vimorg_url : String
  vim_script_id : Nat
  name : Option String
  vimorg_type : Option String
  vimorg_rating : Int
  vimorg_downloads : Int
  vimorg_short_desc : Option String
  info : α
deriving DecidableEq

/-- Outcome of processing one listing row: an uncaught exception (which
aborts the generator), a logged-and-skipped row (the `except` branch of
lines 51-54), or a yielded merged record. -/
inductive RowStep (α : Type) where
  | abort (e : PyErr)
  | skip (name : Option String) (sid : Nat)
  | emit (m : Merged α)
deriving DecidableEq

/-- Processes one listing row (lines 39-66): summary prefix, then the
`try`-guarded `get_plugin_info` call (modelled by the oracle `f`), then
the remaining dict fields.  Only the `f` call is inside the `try`; every
other failure aborts. -/
def processRow (f : Nat → Except PyErr α) (r : Row) : RowStep α :=
  match rowPre r with
  | .error e => .abort e
  | .ok (link, name, sid) =>
    match f sid with
    | .error _ => .skip name sid
    | .ok info =>
      match rowPost r with
      | .error e => .abort e
      | .ok (ty, rating, downloads, sdesc) =>
        .emit ⟨"http://www.vim.org/scripts/" ++ link, sid, name, ty,
               rating, downloads, sdesc, info⟩

/-- Observable outcome of the `get_plugin_list` generator: the records
yielded (in order), the failures logged by line 52 (item name and script
id, in order), and the uncaught exception that aborted the generator, if
any. -/
structure GenOut (α : Type) where
  records : List (Merged α)
  logs : List (Option String × Nat)
  aborted : Option PyErr
deriving DecidableEq

/-- Runs the row loop of `get_plugin_list` over a list of rows.  An
abort stops the loop; a skip adds one log entry; an emit yields one
record. -/
def processRows (f : Nat → Except PyErr α) : List Row → GenOut α
  | [] => ⟨[], [], none⟩
  | r :: rest =>
    match processRow f r with
    | .abort e => ⟨[], [], some e⟩
    | .skip name sid =>
      let o := processRows f rest
      ⟨o.records, (name, sid) :: o.logs, o.aborted⟩
    | .emit m =>
      let o := processRows f rest
      ⟨m :: o.records, o.logs, o.aborted⟩

/-- Embedding of `get_plugin_list` (lines 22-66).  `num` only
parameterizes the request URL (`show_me=num`); the fetched and parsed
page is supplied as `scripts`, the rows of the located table.  Line 39
slices `scripts[2:-1]`: the first two rows and the last row are not
scripts. -/
def get_plugin_list (num : Nat) (scripts : List Row)
    (f : Nat → Except PyErr α) : GenOut α :=
  let _ := num
  processRows f ((scripts.drop 2).dropLast)

/-- Gregorian leap year, as validated by `datetime.date`. -/
def leapYear (y : Nat) : Bool :=
  (y % 4 == 0 && y % 100 != 0) || y % 400 == 0

/-- Number of days of month `m` of year `y` (months are 1-12 here). -/
def daysInMonth (y m : Nat) : Nat :=
  if m == 2 then (if leapYear y then 29 else 28)
  else if m == 4 || m == 6 || m == 9 || m == 11 then 30
  else 31

/-- Month field of `strptime`: regex `1[0-2]|0[1-9]|[1-9]` matched
against the full chunk between the hyphens. -/
def monthChunk : List Char → Option Nat
  | [c] => if charBetween '1' '9' c then some (digitVal c) else none
  | [a, b] =>
    if a == '1' && charBetween '0' '2' b then some (10 + digitVal b)
    else if a == '0' && charBetween '1' '9' b then some (digitVal b)
    else none
  | _ => none

/-- Day field of `strptime`: regex `3[0-1]|[1-2]\d|0[1-9]|[1-9]| [1-9]`
matched against the full trailing chunk (a partial match would leave
unconverted data, which also raises ValueError). -/
def dayChunk : List Char → Option Nat
  | [c] => if charBetween '1' '9' c then some (digitVal c) else none
  | [a, b] =>
    if a == '3' && charBetween '0' '1' b then some (30 + digitVal b)
    else if charBetween '1' '2' a && b.isDigit then
      some (10 * digitVal a + digitVal b)
    else if a == '0' && charBetween '1' '9' b then some (digitVal b)
    else if a == ' ' && charBetween '1' '9' b then some (digitVal b)
    else none
  | _ => none

/-- Models `datetime.datetime.strptime(s, "%Y-%m-%d")` (lines 154-156):
exactly four digits for the year, a hyphen, a month chunk, a hyphen, a
day chunk, nothing left over; then `datetime` validation (year at least
1, day within the month).  `none` means ValueError. -/
def parseYmd (s : String) : Option (Nat × Nat × Nat) :=
  match s.data with
  | y1 :: y2 :: y3 :: y4 :: '-' :: rest =>
    if y1.isDigit && y2.isDigit && y3.isDigit && y4.isDigit then
      let mpart := rest.takeWhile (fun c => c != '-')
      match rest.drop mpart.length with
      | '-' :: dpart =>
        match monthChunk mpart, dayChunk dpart with
        | some m, some d =>
          let y := natOfDigits [y1, y2, y3, y4]
          if 1 ≤ y ∧ d ≤ daysInMonth y m then some (y, m, d) else none
        | _, _ => none
      | _ => none
    else none
  | _ => none

/-- The strptime calls of lines 155-156 as run on an optional text:
`strptime(None, ...)` raises TypeError, a non-matching string raises
ValueError (the spec's DateFormatError). -/
def pyStrptimeYmd : Option String → Except PyErr (Nat × Nat × Nat)
  | none => .error .typeError
  | some s =>
    match parseYmd s with
    | none => .error .valueError
    | some d => .ok d

/-- Embedding of the date section of `get_plugin_info` (lines 146-156):
given the rows of the release-notes table, assert that the header row's
third column reads "date", take the updated date text from
`download_trs[1][2][0].text`, the created date text from
`download_trs[-1][2][0].text`, and parse both with
`strptime("%Y-%m-%d")`. -/
def get_plugin_info_dates (download_trs : List Row) :
    Except PyErr ((Nat × Nat × Nat) × (Nat × Nat × Nat)) :=
  match download_trs.get? 0 with
  | none => .error .indexError
  | some r0 =>
    match r0.get? 2 with
    | none => .error .indexError
    | some c0 =>
      if c0.text = some "date" then
        match download_trs.get? 1 with
        | none => .error .indexError
        | some r1 =>
          match r1.get? 2 with
          | none => .error .indexError
          | some c1 =>
            match c1.children.get? 0 with
            | none => .error .indexError
            | some a1 =>
              match download_trs.getLast? with
              | none => .error .indexError
              | some rl =>
                match rl.get? 2 with
                | none => .error .indexError
                | some cl =>
                  match cl.children.get? 0 with
                  | none => .error .indexError
                  | some al =>
                    match pyStrptimeYmd a1.text with
                    | .error e => .error e
                    | .ok u =>
                      match pyStrptimeYmd al.text with
                      | .error e => .error e
                      | .ok cr => .ok (u, cr)
      else .error .assertionError

/-- Anchor shapes the cleaner handles without raising: an href is
present, the text is present, and the text equals the href or contains
"vimscript" (citation-style) or contains "vimtip" (dropped silently). -/
def recognizedAnchor (e : Elem) : Bool :=
  match e.href, e.text with
  | some h, some t => t == h || hasSub "vimscript" t || hasSub "vimtip" t
  | _, _ => false

/-- Fragment with consecutive `<br>` children and a `<br>` immediately
followed by an `<a>`: the shapes singled out by the claim about full
`<br>`/`<a>` removal. -/
def fragBrBrA : Frag :=
  ⟨none, [⟨"br", none, none, some "1", 0⟩, ⟨"br", none, none, none, 0⟩,
          ⟨"a", some "h", some "h", some "2", 0⟩]⟩

/-- Fragment whose `<br>` has a preceding sibling element with zero
children: lxml truthiness sends the tail to the parent's leading text. -/
def fragChildlessSibling : Frag :=
  ⟨some "start", [⟨"b", none, some "bold", none, 0⟩,
                  ⟨"br", none, none, some "after", 0⟩]⟩

/-- Fragment whose `<br>` has a preceding sibling element with one child
element and an absent tail: the append onto that tail raises TypeError. -/
def fragNoneTailSibling : Frag :=
  ⟨some "s", [⟨"b", none, some "bold", none, 1⟩,
              ⟨"br", none, none, some "x", 0⟩]⟩

/-- Fragment containing only text and no child elements. -/
def fragTextOnly : Frag := ⟨some "hello", []⟩

/-- Fragment containing an `<a>` child with no visible text at all. -/
def fragTextlessAnchor : Frag :=
  ⟨some "t", [⟨"a", some "u", none, none, 0⟩]⟩

/-- A citation-style anchor: text equals href, with a trailing tail. -/
def aCite : Elem := ⟨"a", some "X", some "X", some "Y", 0⟩

/-- An anchor whose text contains "vimtip". -/
def aTip : Elem := ⟨"a", some "v", some "see vimtip 12", none, 0⟩

/-- An anchor matching none of the recognized shapes. -/
def aWeird : Elem := ⟨"a", some "u", some "hello", none, 0⟩

/-- A well-formed listing row with script id 1. -/
def rowG1 : Row :=
  [⟨none, [⟨some "s?script_id=1", some "g1"⟩]⟩, ⟨some "color", []⟩,
   ⟨some "4", []⟩, ⟨some "10", []⟩, ⟨none, [⟨none, some "d1"⟩]⟩]

/-- A well-formed listing row with script id 2. -/
def rowG2 : Row :=
  [⟨none, [⟨some "s?script_id=2", some "g2"⟩]⟩, ⟨some "game", []⟩,
   ⟨some "0", []⟩, ⟨some "3", []⟩, ⟨none, [⟨none, some "d2"⟩]⟩]

/-- A listing row (script id 5) whose rating cell text `"NA"` makes
`int(tr[2].text)` raise ValueError. -/
def rowBadRating : Row :=
  [⟨none, [⟨some "s?script_id=5", some "b"⟩]⟩, ⟨some "util", []⟩,
   ⟨some "NA", []⟩, ⟨some "10", []⟩, ⟨none, [⟨none, some "db"⟩]⟩]

/-- A well-formed listing row with script id 5, used where the detail
fetch for id 5 is made to fail. -/
def rowBad5 : Row :=
  [⟨none, [⟨some "s?script_id=5", some "b"⟩]⟩, ⟨some "util", []⟩,
   ⟨some "2", []⟩, ⟨some "10", []⟩, ⟨none, [⟨none, some "db"⟩]⟩]

/-- Detail oracle that always succeeds. -/
def fAllOk : Nat → Except PyErr Nat := fun _ => .ok 0

/-- Detail oracle that fails exactly on script id 5. -/
def fFail5 : Nat → Except PyErr Nat := fun sid =>
  if sid = 5 then .error .typeError else .ok 0

/-- The merged record produced from `rowG1` under `fAllOk` / `fFail5`. -/
def mergedG1 : Merged Nat :=
  ⟨"http://www.vim.org/scripts/s?script_id=1", 1, some "g1", some "color",
   4, 10, some "d1", 0⟩

/-- The merged record produced from `rowG2` under `fAllOk` / `fFail5`. -/
def mergedG2 : Merged Nat :=
  ⟨"http://www.vim.org/scripts/s?script_id=2", 2, some "g2", some "game",
   0, 3, some "d2", 0⟩

/-- Record map used to state order preservation on the example rows. -/
def mkW : Row → Merged Nat := fun r => if r = rowG1 then mergedG1 else mergedG2

/-- Release-notes table rows: header with "date" in the third column, a
second row with the updated date, a last row with the created date. -/
def trsW : List Row :=
  [[⟨none, []⟩, ⟨none, []⟩, ⟨some "date", []⟩],
   [⟨none, []⟩, ⟨none, []⟩, ⟨none, [⟨none, some "2013-04-01"⟩]⟩],
   [⟨none, []⟩, ⟨none, []⟩, ⟨none, [⟨none, some "2012-01-15"⟩]⟩]]

theorem cleanCitation_nil_shape (text : Option String) (txt : String)
    (tail : Option String) :
    (∃ err, cleanCitation text [] txt tail = .error err) ∨
    (∃ t2, cleanCitation text [] txt tail = .ok (t2, [])) := by
  have hp : prevTruthy [] = false := rfl
  simp only [cleanCitation, hp, Bool.false_eq_true, if_false]
  cases hpa : pyAppend text txt with
  | error e => exact .inl ⟨e, rfl⟩
  | ok t1 =>
    by_cases ht : truthy tail = true
    · simp only [ht, if_true]
      cases hpa2 : pyAppend t1 (tail.getD "") with
      | error e => exact .inl ⟨e, rfl⟩
      | ok t2 => exact .inr ⟨t2, rfl⟩
    · simp only [ht, if_false]
      exact .inr ⟨t1, rfl⟩

theorem cleanStep_nil_shape (t : Option String) (e : Elem)
    (he : e.tag = "br" ∨ e.tag = "a") :
    (∃ err, cleanStep (t, []) e = .error err) ∨
    (∃ t2, cleanStep (t, []) e = .ok (t2, [])) := by
  have hp : prevTruthy [] = false := rfl
  rcases he with he | he
  · simp only [cleanStep, he, if_true, hp, Bool.false_eq_true, if_false]
    by_cases ht : truthy e.tail = true
    · simp only [ht, if_true]
      cases hpa : pyAppend t (e.tail.getD "") with
      | error err => exact .inl ⟨err, rfl⟩
      | ok t2 => exact .inr ⟨t2, rfl⟩
    · simp only [ht, if_false]
      exact .inr ⟨t, rfl⟩
  · have hne : (e.tag = "br") = False := by simp [he]
    simp only [cleanStep, he, hne, if_true, if_false]
    cases hh : e.href with
    | none => exact .inl ⟨.keyError, rfl⟩
    | some href =>
      by_cases het : e.text = some href
      · simp only [het, if_true]
        exact cleanCitation_nil_shape t href e.tail
      · simp only [het, if_false]
        cases htx : e.text with
        | none => exact .inl ⟨.typeError, rfl⟩
        | some s =>
          by_cases hvs : hasSub "vimscript" s = true
          · simp only [hvs, if_true]
            exact cleanCitation_nil_shape t s e.tail
          · simp only [hvs, Bool.false_eq_true, if_false]
            by_cases hvt : hasSub "vimtip" s = true
            · simp only [hvt, if_true]
              exact .inr ⟨t, rfl⟩
            · simp only [hvt, Bool.false_eq_true, if_false]
              exact .inl ⟨.weirdLink href (some s), rfl⟩

theorem cleanList_nil_keeps_nil :
    ∀ (rest : List Elem) (t t' : Option String) (k' : List Elem),
      (∀ e ∈ rest, e.tag = "br" ∨ e.tag = "a") →
      cleanList t [] rest = .ok (t', k') → k' = [] := by
  intro rest
  induction rest with
  | nil =>
    intro t t' k' _ h
    simp only [cleanList, Except.ok.injEq, Prod.mk.injEq] at h
    exact h.2.symm
  | cons e es ih =>
    intro t t' k' hall h
    rcases cleanStep_nil_shape t e (hall e (by simp)) with ⟨err, herr⟩ | ⟨t2, hok⟩
    · rw [cleanList, herr] at h
      exact absurd h (by simp)
    · rw [cleanList, hok] at h
      exact ih t2 t' k' (fun x hx => hall x (by simp [hx])) h

theorem clean_unfold (t : Option String) (cs : List Elem) :
    _clean_text_node ⟨t, cs⟩ =
      match cleanList (if cs.isEmpty then t else if truthy t then t else some "")
          [] cs with
      | .error e => .error e
      | .ok (t2, k) => .ok ⟨t2, k⟩ := rfl

/-- C1: for every input fragment whose children are the `<br>` and `<a>`
elements the cleaner is specified over, if `_clean_text_node` returns
without raising then the mutated fragment has no child elements left (no
`<br>`, no `<a>`, only text content).  The lxml child iterator prefetches
the next sibling before yielding, so consecutive `<br>` children, or a
`<br>` immediately followed by an `<a>`, are all visited and removed. -/
theorem clean_removes_all_br_a (node : Frag) (res : Frag)
    (hba : ∀ e ∈ node.children, e.tag = "br" ∨ e.tag = "a")
    (hok : _clean_text_node node = .ok res) :
    res.children = [] := by
  obtain ⟨t, cs⟩ := node
  rw [clean_unfold] at hok
  cases hcl : cleanList (if cs.isEmpty then t else if truthy t then t else some "")
      [] cs with
  | error e =>
    rw [hcl] at hok
    exact absurd hok (by simp)
  | ok p =>
    obtain ⟨t2, k⟩ := p
    rw [hcl] at hok
    simp only [Except.ok.injEq] at hok
    have hk := cleanList_nil_keeps_nil cs _ t2 k hba hcl
    rw [← hok]
    exact hk

/-- Witness for C1: a fragment with two consecutive `<br>` children and
a `<br>` immediately followed by a citation `<a>` cleans successfully to
a childless fragment. -/
theorem clean_removes_all_br_a_witness :
    _clean_text_node fragBrBrA = .ok ⟨some "1h2", []⟩ ∧
    (Frag.mk (some "1h2") []).children = [] :=
  ⟨rfl, clean_removes_all_br_a fragBrBrA ⟨some "1h2", []⟩ (by decide) rfl⟩

/-- C9: for every fragment containing only text and no child elements,
`_clean_text_node` is a no-op: it returns the fragment unchanged, so the
text content after cleaning equals the text content before. -/
theorem clean_noop_on_text_only (node : Frag) (h : node.children = []) :
    _clean_text_node node = .ok node := by
  obtain ⟨t, c⟩ := node
  have h2 : c = [] := h
  subst h2
  rfl

/-- Witness for C9: a text-only fragment is returned unchanged. -/
theorem clean_noop_on_text_only_witness :
    _clean_text_node fragTextOnly = .ok fragTextOnly :=
  clean_noop_on_text_only fragTextOnly rfl

/-- C4 evaluation: on a fragment whose `<br>` (with tail "after") has a
preceding sibling `<b>` with zero child elements, the code appends the
tail to the parent's leading text ("start" becomes "startafter") and
leaves the sibling's tail `None`, because `if elem.getprevious():` is an
lxml truthiness test (child count) rather than a `None` test.  The claim
(and lines 88-92's evident intent) say the tail must go to the existing
preceding sibling's tail. -/
theorem br_tail_childless_sibling_eval :
    _clean_text_node fragChildlessSibling =
      .ok ⟨some "startafter", [⟨"b", none, some "bold", none, 0⟩]⟩ := rfl

/-- Counterexample for C6: a fragment with no anchors at all (so every
anchor vacuously has a recognized shape) on which the cleaner still
fails with TypeError: the `<br>`'s tail is appended onto the preceding
sibling's tail, which is absent (`None`), and initializing the parent's
leading text does not protect that append. -/
theorem init_text_insufficient_cex :
    (∀ e ∈ fragNoneTailSibling.children, e.tag ≠ "a") ∧
    _clean_text_node fragNoneTailSibling = .error PyErr.typeError :=
  ⟨by decide, rfl⟩

theorem cleanCitation_some_nil_ok (s txt : String) (tail : Option String) :
    ∃ s2, cleanCitation (some s) [] txt tail = .ok (some s2, []) := by
  cases tail with
  | none => exact ⟨s ++ txt, rfl⟩
  | some u =>
    by_cases hu : u = ""
    · subst hu
      exact ⟨s ++ txt, rfl⟩
    · refine ⟨s ++ txt ++ u, ?_⟩
      have ht : truthy (some u) = true := by simp [truthy, hu]
      simp only [cleanCitation, ht, if_true, Option.getD_some]
      rfl

theorem cleanStep_some_nil_ok (s : String) (e : Elem)
    (he : e.tag = "br" ∨ (e.tag = "a" ∧ recognizedAnchor e = true)) :
    ∃ s2, cleanStep (some s, []) e = .ok (some s2, []) := by
  obtain ⟨tag, href, text, tail, n⟩ := e
  rcases he with he | ⟨he, hr⟩
  · have h1 : tag = "br" := he
    subst h1
    cases tail with
    | none => exact ⟨s, rfl⟩
    | some u =>
      by_cases hu : u = ""
      · subst hu
        exact ⟨s, rfl⟩
      · refine ⟨s ++ u, ?_⟩
        have ht : truthy (some u) = true := by simp [truthy, hu]
        simp only [cleanStep, ht, if_true, Option.getD_some]
        rfl
  · have h1 : tag = "a" := he
    subst h1
    have hr2 : recognizedAnchor ⟨"a", href, text, tail, n⟩ = true := hr
    cases href with
    | none => simp [recognizedAnchor] at hr2
    | some h =>
      cases text with
      | none => simp [recognizedAnchor] at hr2
      | some t =>
        simp only [recognizedAnchor, Bool.or_eq_true, beq_iff_eq] at hr2
        by_cases het : t = h
        · subst het
          have hu : cleanStep (some s, []) ⟨"a", some t, some t, tail, n⟩ =
              cleanCitation (some s) [] t tail := by
            simp [cleanStep]
          obtain ⟨s2, h2⟩ := cleanCitation_some_nil_ok s t tail
          exact ⟨s2, by rw [hu]; exact h2⟩
        · have hne : ((some t : Option String) = some h) = False := by
            simp [het]
          rcases hr2 with (heq | hvs) | hvt
          · exact absurd heq het
          · have hu : cleanStep (some s, []) ⟨"a", some h, some t, tail, n⟩ =
                cleanCitation (some s) [] t tail := by
              simp [cleanStep, hne, hvs]
            obtain ⟨s2, h2⟩ := cleanCitation_some_nil_ok s t tail
            exact ⟨s2, by rw [hu]; exact h2⟩
          · by_cases hvs : hasSub "vimscript" t = true
            · have hu : cleanStep (some s, []) ⟨"a", some h, some t, tail, n⟩ =
                  cleanCitation (some s) [] t tail := by
                simp [cleanStep, hne, hvs]
              obtain ⟨s2, h2⟩ := cleanCitation_some_nil_ok s t tail
              exact ⟨s2, by rw [hu]; exact h2⟩
            · refine ⟨s, ?_⟩
              simp [cleanStep, hne, hvs, hvt]

theorem cleanList_ok_of_flat :
    ∀ (rest : List Elem) (s : String),
      (∀ e ∈ rest, e.tag = "br" ∨ (e.tag = "a" ∧ recognizedAnchor e = true)) →
      ∃ s2, cleanList (some s) [] rest = .ok (some s2, []) := by
  intro rest
  induction rest with
  | nil => intro s _; exact ⟨s, rfl⟩
  | cons e es ih =>
    intro s hall
    obtain ⟨s2, hs2⟩ := cleanStep_some_nil_ok s e (hall e (by simp))
    obtain ⟨s3, hs3⟩ := ih s2 (fun x hx => hall x (by simp [hx]))
    refine ⟨s3, ?_⟩
    rw [cleanList, hs2]
    exact hs3

/-- C6 (amended): the initialization of lines 80-81 makes every append
during cleaning safe for fragments whose children are all `<br>` or
recognized-shape `<a>` elements (then no preceding sibling is ever kept,
so every append targets the initialized parent text and succeeds); the
counterexample shows it is not sufficient for fragments with other child
elements, where an append can target an absent sibling tail. -/
theorem init_text_sufficient_flat (node : Frag)
    (h : ∀ e ∈ node.children, e.tag = "br" ∨ (e.tag = "a" ∧ recognizedAnchor e = true)) :
    ∃ res, _clean_text_node node = .ok res := by
  obtain ⟨t, c⟩ := node
  cases c with
  | nil => exact ⟨⟨t, []⟩, rfl⟩
  | cons e es =>
    have hts : ∃ s : String, (if truthy t then t else some "") = some s := by
      cases t with
      | none => exact ⟨"", rfl⟩
      | some s =>
        by_cases hs : truthy (some s) = true
        · exact ⟨s, by simp [hs]⟩
        · exact ⟨"", by simp [hs]⟩
    obtain ⟨s, hs⟩ := hts
    obtain ⟨s2, h2⟩ := cleanList_ok_of_flat (e :: es) s h
    refine ⟨⟨some s2, []⟩, ?_⟩
    rw [clean_unfold]
    simp only [List.isEmpty_cons, Bool.false_eq_true, if_false]
    rw [hs, h2]

/-- Witness for C6 (amended): a fragment with a `<br>` and a citation
anchor cleans without any append failure. -/
theorem init_text_sufficient_flat_witness :
    ∃ res, _clean_text_node fragBrBrA = .ok res :=
  init_text_sufficient_flat fragBrBrA (by decide)

theorem cleanStep_textless_err (t : Option String) (kept : List Elem) (e : Elem)
    (htag : e.tag = "a") (htext : e.text = none) :
    ∃ err, cleanStep (t, kept) e = .error err := by
  obtain ⟨tag, href, text, tail, n⟩ := e
  have h1 : tag = "a" := htag
  have h2 : text = none := htext
  subst h1
  subst h2
  cases href with
  | none => exact ⟨.keyError, rfl⟩
  | some h => exact ⟨.typeError, rfl⟩

theorem cleanList_textless_err :
    ∀ (rest : List Elem) (t : Option String) (kept : List Elem) (e : Elem),
      e ∈ rest → e.tag = "a" → e.text = none →
      ∃ err, cleanList t kept rest = .error err := by
  intro rest
  induction rest with
  | nil => intro _ _ e h; cases h
  | cons x xs ih =>
    intro t kept e hmem htag htext
    rcases List.mem_cons.mp hmem with rfl | hmem2
    · obtain ⟨err, herr⟩ := cleanStep_textless_err t kept e htag htext
      exact ⟨err, by rw [cleanList, herr]⟩
    · cases hstep : cleanStep (t, kept) x with
      | error err => exact ⟨err, by rw [cleanList, hstep]⟩
      | ok p =>
        obtain ⟨t2, k2⟩ := p
        obtain ⟨err, herr⟩ := ih t2 k2 e hmem2 htag htext
        exact ⟨err, by rw [cleanList, hstep]; exact herr⟩

/-- C10: for every fragment containing an `<a>` child with no visible
text at all, the cleaner fails rather than cleaning: `None ==
attrib["href"]` is false, and `'vimscript' in None` then raises
TypeError (or the href lookup itself raises KeyError), so cleaning is
total only over fragments whose every anchor carries visible text. -/
theorem clean_fails_on_textless_anchor (node : Frag) (e : Elem)
    (hmem : e ∈ node.children) (htag : e.tag = "a") (htext : e.text = none) :
    ∃ err, _clean_text_node node = .error err := by
  obtain ⟨t, cs⟩ := node
  obtain ⟨err, herr⟩ :=
    cleanList_textless_err cs
      (if cs.isEmpty then t else if truthy t then t else some "") [] e hmem htag htext
  refine ⟨err, ?_⟩
  rw [clean_unfold, herr]

/-- Witness for C10: a fragment whose only anchor has `text = None`
makes the cleaner raise. -/
theorem clean_fails_on_textless_anchor_witness :
    ∃ err, _clean_text_node fragTextlessAnchor = .error err :=
  clean_fails_on_textless_anchor fragTextlessAnchor
    ⟨"a", some "u", none, none, 0⟩ (by simp [fragTextlessAnchor]) rfl rfl

theorem cleanCitation_some_nil_eval (s txt : String) (tail : Option String) :
    cleanCitation (some s) [] txt tail =
      .ok (some (if truthy tail then s ++ txt ++ tail.getD "" else s ++ txt), []) := by
  cases tail with
  | none => rfl
  | some u =>
    by_cases hu : u = ""
    · subst hu
      rfl
    · have ht : truthy (some u) = true := by simp [truthy, hu]
      simp only [cleanCitation, ht, if_true, Option.getD_some]
      rfl

/-- C5: for every `<a>` child processed by the cleaner: when its href
equals its visible text or the text contains "vimscript", the element is
deleted and its text plus any truthy trailing text is appended in its
place (onto the parent's leading text, there being no kept preceding
sibling); when the text contains "vimtip" (and matches neither citation
shape), the element is deleted leaving the state unchanged — no text is
preserved; otherwise the cleaner raises the weird-link exception
carrying the link target and the text. -/
theorem anchor_shapes (e : Elem) (h : String) (htag : e.tag = "a")
    (hhref : e.href = some h) :
    (∀ (s t : String), e.text = some t → (t = h ∨ hasSub "vimscript" t = true) →
      cleanStep (some s, []) e =
        .ok (some (if truthy e.tail then s ++ t ++ e.tail.getD "" else s ++ t), [])) ∧
    (∀ (st : Option String × List Elem) (t : String), e.text = some t → t ≠ h →
      hasSub "vimscript" t = false → hasSub "vimtip" t = true →
      cleanStep st e = .ok st) ∧
    (∀ (st : Option String × List Elem) (t : String), e.text = some t → t ≠ h →
      hasSub "vimscript" t = false → hasSub "vimtip" t = false →
      cleanStep st e = .error (.weirdLink h (some t))) := by
  obtain ⟨tag, href, text, tail, n⟩ := e
  have h1 : tag = "a" := htag
  have h2 : href = some h := hhref
  subst h1
  subst h2
  refine ⟨?_, ?_, ?_⟩
  · intro s t htx hcase
    have h3 : text = some t := htx
    subst h3
    by_cases het : t = h
    · subst het
      have hu : cleanStep (some s, []) ⟨"a", some t, some t, tail, n⟩ =
          cleanCitation (some s) [] t tail := by simp [cleanStep]
      rw [hu]
      exact cleanCitation_some_nil_eval s t tail
    · rcases hcase with heq | hvs
      · exact absurd heq het
      · have hne : ((some t : Option String) = some h) = False := by simp [het]
        have hu : cleanStep (some s, []) ⟨"a", some h, some t, tail, n⟩ =
            cleanCitation (some s) [] t tail := by simp [cleanStep, hne, hvs]
        rw [hu]
        exact cleanCitation_some_nil_eval s t tail
  · intro st t htx het hvs hvt
    obtain ⟨t0, kept⟩ := st
    have h3 : text = some t := htx
    subst h3
    have hne : ((some t : Option String) = some h) = False := by simp [het]
    simp [cleanStep, hne, hvs, hvt]
  · intro st t htx het hvs hvt
    obtain ⟨t0, kept⟩ := st
    have h3 : text = some t := htx
    subst h3
    have hne : ((some t : Option String) = some h) = False := by simp [het]
    simp [cleanStep, hne, hvs, hvt]

/-- Witness for C5: the three anchor shapes on concrete elements — a
citation anchor (text equals href) is replaced by its text and tail, a
"vimtip" anchor is dropped with no text preserved, and an unrecognized
anchor raises the weird-link exception with its target and text. -/
theorem anchor_shapes_witness :
    cleanStep (some "p", []) aCite = .ok (some "pXY", []) ∧
    cleanStep (some "q", [aCite]) aTip = .ok (some "q", [aCite]) ∧
    cleanStep (some "q", []) aWeird = .error (.weirdLink "u" (some "hello")) :=
  ⟨(anchor_shapes aCite "X" rfl rfl).1 "p" "X" rfl (Or.inl rfl),
   (anchor_shapes aTip "v" rfl rfl).2.1 (some "q", [aCite]) "see vimtip 12" rfl
     (by decide) (by decide) (by decide),
   (anchor_shapes aWeird "u" rfl rfl).2.2 (some "q", []) "hello" rfl
     (by decide) (by decide) (by decide)⟩

theorem processRows_records_le {α : Type} (f : Nat → Except PyErr α) :
    ∀ l : List Row, (processRows f l).records.length ≤ l.length := by
  intro l
  induction l with
  | nil => simp [processRows]
  | cons r rest ih =>
    cases h : processRow f r with
    | abort e => simp [processRows, h]
    | skip name sid =>
      simp only [processRows, h, List.length_cons]
      omega
    | emit m =>
      simp only [processRows, h, List.length_cons]
      omega

theorem processRows_all_emit {α : Type} (f : Nat → Except PyErr α)
    (mk : Row → Merged α) :
    ∀ l : List Row, (∀ r ∈ l, processRow f r = .emit (mk r)) →
      processRows f l = ⟨l.map mk, [], none⟩ := by
  intro l
  induction l with
  | nil => intro _; rfl
  | cons r rest ih =>
    intro hall
    have hr := hall r (by simp)
    simp only [processRows, hr, ih (fun x hx => hall x (by simp [hx])), List.map_cons]

theorem processRows_append_emit {α : Type} (f : Nat → Except PyErr α)
    (mk : Row → Merged α) :
    ∀ (l rest : List Row), (∀ r ∈ l, processRow f r = .emit (mk r)) →
      processRows f (l ++ rest) =
        ⟨l.map mk ++ (processRows f rest).records,
         (processRows f rest).logs, (processRows f rest).aborted⟩ := by
  intro l
  induction l with
  | nil => intro rest _; rfl
  | cons r l ih =>
    intro rest hall
    have hr := hall r (by simp)
    simp only [List.cons_append, processRows, hr, List.append_eq,
      ih rest (fun x hx => hall x (by simp [hx])), List.map_cons]

/-- C2 (amended): an error raised by the detail fetch (`get_plugin_info`)
for a row is caught, logged with the item name and identifier, and
processing continues with the following rows, whose outcome is
unchanged.  (Per the counterexample, this recovery boundary covers only
the detail fetch: failures extracting the summary fields occur outside
the `try` and abort the batch.) -/
theorem listing_detail_error_caught {α : Type} (num : Nat) (a b z r : Row)
    (mid : List Row) (f : Nat → Except PyErr α) (link : String)
    (name : Option String) (sid : Nat) (err : PyErr)
    (hpre : rowPre r = .ok (link, name, sid)) (hf : f sid = .error err) :
    get_plugin_list num (a :: b :: r :: (mid ++ [z])) f =
      ⟨(get_plugin_list num (a :: b :: (mid ++ [z])) f).records,
       (name, sid) :: (get_plugin_list num (a :: b :: (mid ++ [z])) f).logs,
       (get_plugin_list num (a :: b :: (mid ++ [z])) f).aborted⟩ := by
  have hs1 : ((a :: b :: r :: (mid ++ [z])).drop 2).dropLast = r :: mid := by
    have h1 : (a :: b :: r :: (mid ++ [z])).drop 2 = (r :: mid) ++ [z] := by simp
    rw [h1, List.dropLast_concat]
  have hs2 : ((a :: b :: (mid ++ [z])).drop 2).dropLast = mid := by
    have h1 : (a :: b :: (mid ++ [z])).drop 2 = mid ++ [z] := rfl
    rw [h1, List.dropLast_concat]
  have hrow : processRow f r = .skip name sid := by
    simp [processRow, hpre, hf]
  simp only [get_plugin_list, hs1, hs2, processRows, hrow]

/-- Witness for C2 (amended): with headers, one detail-failing row, one
good row and a footer, the failing row contributes exactly one log entry
and the rest of the batch is processed unchanged. -/
theorem listing_detail_error_caught_witness :
    get_plugin_list 1 ([] :: [] :: rowBad5 :: ([rowG1] ++ [([] : Row)])) fFail5 =
      ⟨(get_plugin_list 1 ([] :: [] :: ([rowG1] ++ [([] : Row)])) fFail5).records,
       (some "b", 5) ::
         (get_plugin_list 1 ([] :: [] :: ([rowG1] ++ [([] : Row)])) fFail5).logs,
       (get_plugin_list 1 ([] :: [] :: ([rowG1] ++ [([] : Row)])) fFail5).aborted⟩ :=
  listing_detail_error_caught 1 [] [] [] rowBad5 [rowG1] fFail5
    "s?script_id=5" (some "b") 5 PyErr.typeError rfl rfl

/-- Counterexample for C2: a batch whose third script row has rating
text "NA".  The detail fetch succeeds for every row, yet the batch
aborts at that row with the uncaught ValueError from `int(tr[2].text)`:
the error is not logged, the following well-formed row contributes
nothing, and only the record of the first row is emitted.  A failure
extracting a summary field is thus not caught by the listing loop. -/
theorem listing_summary_error_aborts_cex :
    get_plugin_list 5 [[], [], rowG1, rowBadRating, rowG2, []] fAllOk =
      ⟨[mergedG1], [], some PyErr.valueError⟩ := rfl

/-- C3: on a listing page whose script rows are `pre ++ bad :: post`
(between the two header rows and the footer row), where every row of
`pre ++ post` processes to an emitted record and exactly the detail
fetch of `bad` fails, the generator emits exactly the records of
`pre ++ post` in their original relative order, logs exactly one
failure (with `bad`'s name and identifier), emits nothing for `bad`,
and does not abort; the K rows thus yield K-1 merged records. -/
theorem listing_single_failure_isolation {α : Type} (num : Nat)
    (a b z bad : Row) (pre post : List Row) (f : Nat → Except PyErr α)
    (mk : Row → Merged α) (blink : String) (bname : Option String)
    (bsid : Nat) (err : PyErr)
    (hgood : ∀ r ∈ pre ++ post, processRow f r = .emit (mk r))
    (hbad : rowPre bad = .ok (blink, bname, bsid))
    (hf : f bsid = .error err) :
    get_plugin_list num (a :: b :: ((pre ++ bad :: post) ++ [z])) f =
      ⟨(pre ++ post).map mk, [(bname, bsid)], none⟩ ∧
    (get_plugin_list num (a :: b :: ((pre ++ bad :: post) ++ [z])) f).records.length + 1 =
      (pre ++ bad :: post).length := by
  have hslice : ((a :: b :: ((pre ++ bad :: post) ++ [z])).drop 2).dropLast =
      pre ++ bad :: post := by
    have h1 : (a :: b :: ((pre ++ bad :: post) ++ [z])).drop 2 =
        (pre ++ bad :: post) ++ [z] := rfl
    rw [h1, List.dropLast_concat]
  have hrow : processRow f bad = .skip bname bsid := by
    simp [processRow, hbad, hf]
  have hpost : processRows f post = ⟨post.map mk, [], none⟩ :=
    processRows_all_emit f mk post (fun x hx => hgood x (by simp [hx]))
  have hbadpost : processRows f (bad :: post) =
      ⟨post.map mk, [(bname, bsid)], none⟩ := by
    simp only [processRows, hrow, hpost]
  have hmain : processRows f (pre ++ bad :: post) =
      ⟨pre.map mk ++ post.map mk, [(bname, bsid)], none⟩ := by
    rw [processRows_append_emit f mk pre (bad :: post)
      (fun x hx => hgood x (by simp [hx])), hbadpost]
  have hfull : get_plugin_list num (a :: b :: ((pre ++ bad :: post) ++ [z])) f =
      ⟨(pre ++ post).map mk, [(bname, bsid)], none⟩ := by
    simp only [get_plugin_list, hslice, hmain, List.map_append]
  refine ⟨hfull, ?_⟩
  rw [hfull]
  simp only [List.length_map, List.length_append, List.length_cons]
  omega

/-- Witness for C3: rows g1, bad, g2 with the detail fetch failing only
on the bad row's id 5: two records in order, one log, no abort, and
2 + 1 = 3 rows. -/
theorem listing_single_failure_isolation_witness :
    get_plugin_list 9 ([] :: [] :: (([rowG1] ++ rowBad5 :: [rowG2]) ++ [([] : Row)])) fFail5 =
      ⟨([rowG1] ++ [rowG2]).map mkW, [(some "b", 5)], none⟩ ∧
    (get_plugin_list 9 ([] :: [] :: (([rowG1] ++ rowBad5 :: [rowG2]) ++ [([] : Row)])) fFail5).records.length + 1 =
      ([rowG1] ++ rowBad5 :: [rowG2]).length :=
  listing_single_failure_isolation 9 [] [] [] rowBad5 [rowG1] [rowG2] fFail5 mkW
    "s?script_id=5" (some "b") 5 PyErr.typeError (by decide) rfl rfl

/-- C7: for a located listing table of N rows (the request count `num`
only parameterizes the URL), the rows processed are exactly the table's
rows without its first two and its last one, and the generator emits at
most N - 3 merged records. -/
theorem listing_slice_bound {α : Type} (num N : Nat) (r0 r1 z : Row)
    (mid : List Row) (f : Nat → Except PyErr α)
    (hN : (r0 :: r1 :: (mid ++ [z])).length = N) :
    get_plugin_list num (r0 :: r1 :: (mid ++ [z])) f = processRows f mid ∧
    (get_plugin_list num (r0 :: r1 :: (mid ++ [z])) f).records.length ≤ N - 3 := by
  have hslice : ((r0 :: r1 :: (mid ++ [z])).drop 2).dropLast = mid := by
    have h1 : (r0 :: r1 :: (mid ++ [z])).drop 2 = mid ++ [z] := rfl
    rw [h1, List.dropLast_concat]
  have heq : get_plugin_list num (r0 :: r1 :: (mid ++ [z])) f = processRows f mid := by
    simp only [get_plugin_list, hslice]
  refine ⟨heq, ?_⟩
  rw [heq]
  have hle := processRows_records_le f mid
  have hlen : (r0 :: r1 :: (mid ++ [z])).length = mid.length + 3 := by simp
  omega

/-- Witness for C7: a 5-row table (two headers, two script rows, one
footer) yields the row loop on exactly the middle rows and at most
5 - 3 = 2 records. -/
theorem listing_slice_bound_witness :
    get_plugin_list 2 ([] :: [] :: ([rowG1, rowG2] ++ [([] : Row)])) fAllOk =
      processRows fAllOk [rowG1, rowG2] ∧
    (get_plugin_list 2 ([] :: [] :: ([rowG1, rowG2] ++ [([] : Row)])) fAllOk).records.length ≤ 5 - 3 :=
  listing_slice_bound 2 5 [] [] [] [rowG1, rowG2] fAllOk rfl

/-- C8: given release-notes table rows whose header row's third column
reads "date" and whose second and last rows carry date strings in the
expected positions, the date section of `get_plugin_info` parses the
second row's text as the updated date and the last row's text as the
created date, each with `strptime("%Y-%m-%d")`, and raises ValueError
(the DateFormatError) exactly when a date text does not parse in that
format. -/
theorem detail_dates_spec (trs : List Row) (r0 r1 rl : Row) (c0 c1 cl : Cell)
    (a1 al : Anchor) (su sc : String)
    (h0 : trs.get? 0 = some r0) (h02 : r0.get? 2 = some c0)
    (hdr : c0.text = some "date")
    (h1 : trs.get? 1 = some r1) (h12 : r1.get? 2 = some c1)
    (h1c : c1.children.get? 0 = some a1) (hut : a1.text = some su)
    (hl : trs.getLast? = some rl) (hl2 : rl.get? 2 = some cl)
    (hlc : cl.children.get? 0 = some al) (hct : al.text = some sc) :
    get_plugin_info_dates trs =
      match parseYmd su, parseYmd sc with
      | some u, some c => .ok (u, c)
      | _, _ => .error PyErr.valueError := by
  simp only [get_plugin_info_dates, h0, h02, hdr, h1, h12, h1c, hut, hl, hl2,
    hlc, hct, pyStrptimeYmd, if_true]
  cases hu : parseYmd su <;> cases hc : parseYmd sc <;> simp [hu, hc]

/-- Witness for C8: a three-row release-notes table with valid dates
yields the second row's date as updated and the last row's date as
created. -/
theorem detail_dates_spec_witness :
    get_plugin_info_dates trsW = .ok ((2013, 4, 1), (2012, 1, 15)) :=
  detail_dates_spec trsW
    [⟨none, []⟩, ⟨none, []⟩, ⟨some "date", []⟩]
    [⟨none, []⟩, ⟨none, []⟩, ⟨none, [⟨none, some "2013-04-01"⟩]⟩]
    [⟨none, []⟩, ⟨none, []⟩, ⟨none, [⟨none, some "2012-01-15"⟩]⟩]
    ⟨some "date", []⟩ ⟨none, [⟨none, some "2013-04-01"⟩]⟩
    ⟨none, [⟨none, some "2012-01-15"⟩]⟩
    ⟨none, some "2013-04-01"⟩ ⟨none, some "2012-01-15"⟩
    "2013-04-01" "2012-01-15"
    rfl rfl rfl rfl rfl rfl rfl rfl rfl rfl rfl
